import Mathlib

/-!
Verification of the PlatformIO build helper `get_version.py` from the
ESP32Clock repository.  The script inspects the `CI` environment variable,
resolves a firmware version string (an exact git tag in CI mode, a
`dev-YYYYMMDD-HHMMSS` timestamp in local mode), renders a C header and
writes it to `<include_dir>/version.h`, creating the directory if needed.

The embedding below models the script as a pure function from an
environment (CI variable, include-directory setting, outcome of the
`git describe` subprocess, current clock reading) and a file-system state
to a run result (success, build abort via `env.Exit`, or a propagated
I/O exception) together with the list of messages printed.
-/

/-- A wall-clock reading as produced by `datetime.now()`:
year, month, day, hour, minute, second. -/
structure DateTime where
  year : Nat
  month : Nat
  day : Nat
  hour : Nat
  minute : Nat
  second : Nat
deriving DecidableEq

/-- The ranges Python's `datetime` guarantees for a `datetime.now()` value
(`MINYEAR = 1`, `MAXYEAR = 9999`). -/
def DateTime.Valid (d : DateTime) : Prop :=
  1 ≤ d.year ∧ d.year ≤ 9999 ∧ 1 ≤ d.month ∧ d.month ≤ 12 ∧
  1 ≤ d.day ∧ d.day ≤ 31 ∧ d.hour ≤ 23 ∧ d.minute ≤ 59 ∧ d.second ≤ 59

instance (d : DateTime) : Decidable d.Valid := by
  unfold DateTime.Valid; infer_instance

/-- Zero-padded two-digit decimal rendering, as `strftime` does for
`%m`, `%d`, `%H`, `%M`, `%S` (the argument is at most 99 for every
field of a valid `datetime`). -/
def pad2 (n : Nat) : List Char :=
  [Nat.digitChar (n / 10 % 10), Nat.digitChar (n % 10)]

/-- Zero-padded four-digit decimal rendering, as `strftime` does for
`%Y` on a `datetime` year (which is between 1 and 9999). -/
def pad4 (n : Nat) : List Char :=
  [Nat.digitChar (n / 1000 % 10), Nat.digitChar (n / 100 % 10),
   Nat.digitChar (n / 10 % 10), Nat.digitChar (n % 10)]

/-- `now.strftime("dev-%Y%m%d-%H%M%S")` from line 40 of `get_version.py`. -/
def strftimeDev (d : DateTime) : String :=
  String.mk ((String.data "dev-") ++ pad4 d.year ++ pad2 d.month ++ pad2 d.day
    ++ (String.data "-") ++ pad2 d.hour ++ pad2 d.minute ++ pad2 d.second)

/-- Python's `str.lower()` (ASCII case folding), modelled as a map over
the character list. -/
def strLower (s : String) : String :=
  String.mk (s.data.map Char.toLower)

/-- Python's `.strip()`: remove leading and trailing whitespace. -/
def strTrim (s : String) : String :=
  String.mk (((s.data.dropWhile Char.isWhitespace).reverse.dropWhile
    Char.isWhitespace).reverse)

/-- Outcome of the `subprocess.check_output(["git", "describe", "--tags",
"--exact-match"])` call: raw stdout on success, `CalledProcessError`
(carrying its rendering) when HEAD is not exactly tagged, or
`FileNotFoundError` when the `git` executable is missing. -/
inductive GitResult where
  | success (raw : String)
  | notTagged (err : String)
  | gitNotFound
deriving DecidableEq

/-- The inputs the script reads from its surroundings: the `CI` environment
variable, the `PROJECT_INCLUDE_DIR` setting of the PlatformIO environment,
the outcome the `git describe` subprocess would have, and the clock. -/
structure Env where
  ci : Option String
  includeDirSetting : Option String
  gitDescribe : GitResult
  now : DateTime

/-- Line 11: `is_ci = os.getenv("CI", "false").lower() == "true"`. -/
def is_ci (ci : Option String) : Bool :=
  strLower (ci.getD ("false")) == "true"

/-- The messages the script prints, one constructor per `print` call. -/
inductive Msg where
  | ciDetected
  | localDetected
  | errNotTagged (err : String)
  | errNotTaggedHint
  | errGitMissing
  | generated (path : String) (version : String)
deriving DecidableEq

/-- Whether a printed message is one of the error diagnostics. -/
def Msg.isError : Msg → Bool
  | .errNotTagged _ => true
  | .errNotTaggedHint => true
  | .errGitMissing => true
  | _ => false

/-- Lines 15-40: the version-resolution phase.  In CI mode the version is
the stripped output of `git describe --tags --exact-match`; a
`CalledProcessError` or `FileNotFoundError` leads to `env.Exit(1)`
(modelled as `Except.error 1`).  In local mode the version is the
`dev-` timestamp.  The second component lists the messages printed. -/
def resolveVersion (e : Env) : Except Nat String × List Msg :=
  if is_ci e.ci then
    match e.gitDescribe with
    | .success raw => (.ok (strTrim raw), [.ciDetected])
    | .notTagged err => (.error 1, [.ciDetected, .errNotTagged err, .errNotTaggedHint])
    | .gitNotFound => (.error 1, [.ciDetected, .errGitMissing])
  else
    (.ok (strftimeDev e.now), [.localDetected])

/-- Lines 43-46: the f-string
`f"""#pragma once\n\n#define FIRMWARE_VERSION "{version}"\n"""`. -/
def header_content (version : String) : String :=
  "#pragma once\n\n#define FIRMWARE_VERSION \"" ++ version ++ "\"\n"

/-- Line 49: `include_dir = env.get("PROJECT_INCLUDE_DIR", "include")`. -/
def include_dir (e : Env) : String :=
  e.includeDirSetting.getD ("include")

/-- Line 50: `version_file_path = os.path.join(include_dir, "version.h")`. -/
def version_file_path (e : Env) : String :=
  include_dir e ++ "/version.h"

/-- A file-system state: which paths are existing directories, and the
content of each existing regular file. -/
structure FS where
  isDir : String → Bool
  file : String → Option String

/-- Split a character list at `/` separators (the path components
`os.makedirs` walks through). -/
def splitSlash : List Char → List (List Char)
  | [] => [[]]
  | c :: rest =>
    if c = '/' then [] :: splitSlash rest
    else
      match splitSlash rest with
      | [] => [[c]]
      | part :: parts => (c :: part) :: parts

/-- The chain of paths `os.makedirs` materialises for `p`: every proper
prefix of `p` at a `/` boundary, and `p` itself. -/
def ancestors (p : String) : List String :=
  let parts := splitSlash p.data
  ((List.range (parts.length - 1)).map
    (fun i => String.mk (List.intercalate ['/'] (parts.take (i + 1))))) ++ [p]

/-- Line 54: `os.makedirs(include_dir)`.  It creates the directory and all
missing parents; it raises (`FileExistsError` / `NotADirectoryError`,
modelled as `none`) when a path on the chain exists as a regular file. -/
def FS.mkdirs (fs : FS) (p : String) : Option FS :=
  if (ancestors p).any (fun a => (fs.file a).isSome) then none
  else some { fs with isDir := fun d => (ancestors p).contains d || fs.isDir d }

/-- Lines 57-58: `open(version_file_path, "w")` followed by
`f.write(header_content)`.  Mode `"w"` truncates, so any previous content
is replaced in full; opening a directory raises (modelled as `none`). -/
def FS.writeFile (fs : FS) (p : String) (c : String) : Option FS :=
  if fs.isDir p then none
  else some { fs with file := fun q => if q = p then some c else fs.file q }

/-- Result of one run of the script: normal completion (process exit 0),
a build abort through `env.Exit` with the given status, or a propagated
I/O exception.  Each constructor carries the final file-system state. -/
inductive RunResult where
  | ok (version : String) (fs : FS)
  | buildAbort (code : Nat) (fs : FS)
  | ioError (fs : FS)

/-- The process exit status for each outcome (an uncaught Python
exception terminates the interpreter with status 1). -/
def RunResult.exitCode : RunResult → Nat
  | .ok _ _ => 0
  | .buildAbort c _ => c
  | .ioError _ => 1

/-- The file-system state after the run. -/
def RunResult.finalFS : RunResult → FS
  | .ok _ fs => fs
  | .buildAbort _ fs => fs
  | .ioError fs => fs

/-- Whether the run completed normally. -/
def RunResult.isOk : RunResult → Bool
  | .ok _ _ => true
  | _ => false

/-- The whole script, lines 11-60: resolve the version (aborting the build
from CI mode when `git describe` fails), render the header, default the
include directory, create it when it is not already a directory, and
write `version.h`. -/
def runScript (e : Env) (fs : FS) : RunResult × List Msg :=
  let r := resolveVersion e
  match r.1 with
  | .error c => (.buildAbort c fs, r.2)
  | .ok v =>
    let content := header_content v
    let dir := include_dir e
    let path := version_file_path e
    match (if fs.isDir dir then some fs else fs.mkdirs dir) with
    | none => (.ioError fs, r.2)
    | some fs2 =>
      match fs2.writeFile path content with
      | none => (.ioError fs2, r.2)
      | some fs3 => (.ok v fs3, r.2 ++ [.generated path v])

/-- Modelled from the spec: "value of variable `CI`, case-insensitively
compared to the literal `true`" — the variable is set and its value
lowercases to `"true"`. -/
def SpecCIMode (ci : Option String) : Prop :=
  ∃ v, ci = some v ∧ strLower v = "true"

/-- Full-match test, on a character list, for the spec's version pattern
`dev-\d{8}-\d{6}`: the four characters `dev-`, eight digits, a dash,
six digits, nothing else. -/
def devPattern (l : List Char) : Bool :=
  (l.take 4 == ['d', 'e', 'v', '-']) &&
  ((l.drop 4).take 8).all Char.isDigit && ((l.drop 4).take 8).length == 8 &&
  ((l.drop 12).take 1 == ['-']) &&
  (l.drop 13).all Char.isDigit && (l.drop 13).length == 6

/-- Modelled from the spec §8: the generated version "matches pattern
`dev-\d{8}-\d{6}`" (as a full match). -/
def matchesDevPattern (s : String) : Bool :=
  devPattern s.data

/-- Chronological key of a clock reading: the fields packed in
year-month-day-hour-minute-second order, so that for valid readings
`dtKey d1 ≤ dtKey d2` says `d1` is not later than `d2`. -/
def dtKey (d : DateTime) : Nat :=
  ((((d.year * 100 + d.month) * 100 + d.day) * 100 + d.hour) * 100
    + d.minute) * 100 + d.second

/-- Modelled from the spec §4.1: the header is the line `#pragma once`,
one blank line, then the `#define` line with the version enclosed in
double quotes, each line terminated by a newline, with no further
content beyond the final newline. -/
def specHeader (v : String) : String :=
  "#pragma once" ++ "\n" ++ "" ++ "\n"
    ++ ("#define FIRMWARE_VERSION \"" ++ v ++ "\"") ++ "\n"

/-- An empty file-system state. -/
def fsEmpty : FS :=
  { isDir := fun _ => false, file := fun _ => none }

/-- A file system holding an `include` directory with a previously
generated header. -/
def fsPrev : FS :=
  { isDir := fun d => d == "include",
    file := fun q => if q = "include/version.h" then some ("old header") else none }

/-- A file system in which the path `include` exists as a regular file. -/
def fsBlock : FS :=
  { isDir := fun _ => false,
    file := fun q => if q = "include" then some ("not a directory") else none }

/-- A sample clock reading. -/
def dtA : DateTime :=
  { year := 2025, month := 10, day := 17, hour := 2, minute := 32, second := 23 }

/-- A clock reading one second after `dtA`. -/
def dtB : DateTime :=
  { year := 2025, month := 10, day := 17, hour := 2, minute := 32, second := 24 }

/-- A CI-mode environment whose `git describe` succeeds with a padded tag. -/
def envC2 : Env :=
  { ci := some ("true"), includeDirSetting := none,
    gitDescribe := GitResult.success (" v1.2.3\n"), now := dtA }

/-- A CI-mode environment (upper-case flag) on an untagged commit. -/
def envC3 : Env :=
  { ci := some ("TRUE"), includeDirSetting := none,
    gitDescribe := GitResult.notTagged ("exit status 128"), now := dtA }

/-- A local-mode environment (variable absent). -/
def envC4 : Env :=
  { ci := none, includeDirSetting := none,
    gitDescribe := GitResult.success (""), now := dtA }

/-- A CI-mode environment with a nested include directory setting. -/
def envC6 : Env :=
  { ci := some ("true"), includeDirSetting := some ("src/gen"),
    gitDescribe := GitResult.success ("v1.0\n"), now := dtA }

/-- A CI-mode environment in which the `git` executable is missing. -/
def envC7 : Env :=
  { ci := some ("true"), includeDirSetting := none,
    gitDescribe := GitResult.gitNotFound, now := dtA }

/-- A local-mode environment used for the determinism witness. -/
def envC9 : Env :=
  { ci := some ("0"), includeDirSetting := none,
    gitDescribe := GitResult.gitNotFound, now := dtA }

/-- A local-mode environment whose include path is blocked by a file. -/
def envC10 : Env :=
  { ci := none, includeDirSetting := none,
    gitDescribe := GitResult.gitNotFound, now := dtA }

/-- A local-mode environment with clock `dtA`. -/
def envL1 : Env :=
  { ci := some ("false"), includeDirSetting := none,
    gitDescribe := GitResult.gitNotFound, now := dtA }

/-- A local-mode environment with clock `dtB`, one second later. -/
def envL2 : Env :=
  { ci := some ("false"), includeDirSetting := none,
    gitDescribe := GitResult.gitNotFound, now := dtB }

/-- Claim C1: the script runs in CI mode iff the `CI` environment variable
is set and its value, compared case-insensitively, equals `"true"`;
any other value, including the variable being absent, selects local mode. -/
theorem is_ci_iff_spec (ci : Option String) :
    is_ci ci = true ↔ SpecCIMode ci := by
  cases ci with
  | none =>
    constructor
    · intro h; exact absurd h (by decide)
    · rintro ⟨v, hv, _⟩; cases hv
  | some v =>
    constructor
    · intro h
      refine ⟨v, rfl, ?_⟩
      simpa [is_ci] using h
    · rintro ⟨w, hw, hlow⟩
      cases hw
      simpa [is_ci] using hlow

/-- In CI mode with a successful `git describe`, the resolution phase
returns the stripped tag and only the detection message. -/
theorem resolveVersion_ci_success (e : Env) (raw : String)
    (hci : is_ci e.ci = true) (hg : e.gitDescribe = GitResult.success raw) :
    resolveVersion e = (Except.ok (strTrim raw), [Msg.ciDetected]) := by
  simp [resolveVersion, hci, hg]

/-- In local mode the resolution phase returns the timestamp version. -/
theorem resolveVersion_local (e : Env) (hci : is_ci e.ci = false) :
    resolveVersion e = (Except.ok (strftimeDev e.now), [Msg.localDetected]) := by
  simp [resolveVersion, hci]

/-- When the resolution phase aborts, the whole run is a build abort that
leaves the file system untouched. -/
theorem runScript_of_error (e : Env) (fs : FS) (c : Nat)
    (h : (resolveVersion e).1 = Except.error c) :
    runScript e fs = (RunResult.buildAbort c fs, (resolveVersion e).2) := by
  simp only [runScript]
  rw [h]

/-- When the resolution phase succeeds, the run never ends in `env.Exit`. -/
theorem runScript_no_abort (e : Env) (fs : FS) (v : String)
    (h : (resolveVersion e).1 = Except.ok v) :
    ∀ c fs2, (runScript e fs).1 ≠ RunResult.buildAbort c fs2 := by
  intro c fs2 hc
  simp only [runScript] at hc
  split at hc
  next c' heq => rw [h] at heq; simp at heq
  next v' heq =>
    split at hc
    · simp at hc
    next fs2' hstep =>
      split at hc <;> simp at hc

/-- A normally completed run has process exit status 0. -/
theorem exitCode_of_isOk (r : RunResult) (h : r.isOk = true) : r.exitCode = 0 := by
  cases r <;> simp_all [RunResult.isOk, RunResult.exitCode]

/-- Anatomy of a successful run: the version comes from the resolution
phase, the resolved path holds exactly the rendered header, and when the
include directory was initially missing the whole `makedirs` chain now
consists of directories. -/
theorem runScript_ok_inv (e : Env) (fs : FS) (v : String) (fs3 : FS)
    (h : (runScript e fs).1 = RunResult.ok v fs3) :
    (resolveVersion e).1 = Except.ok v ∧
    fs3.file (version_file_path e) = some (header_content v) ∧
    (fs.isDir (include_dir e) = false →
      ∀ a ∈ ancestors (include_dir e), fs3.isDir a = true) := by
  simp only [runScript] at h
  split at h
  · simp at h
  next v' hres =>
    split at h
    · simp at h
    next fs2 hstep =>
      split at h
      · simp at h
      next fs3' hwrite =>
        simp only at h
        obtain ⟨hv, hfs⟩ : v' = v ∧ fs3' = fs3 := by
          injection h with h1 h2
          exact ⟨h1, h2⟩
        subst hv hfs
        unfold FS.writeFile at hwrite
        split at hwrite
        · exact absurd hwrite (by simp)
        next hpathdir =>
          obtain hfs3 : _ = fs3' := Option.some.inj hwrite
          subst hfs3
          refine ⟨hres, by simp, ?_⟩
          intro hdir a ha
          rw [if_neg (by simp [hdir]) ] at hstep
          unfold FS.mkdirs at hstep
          split at hstep
          · exact absurd hstep (by simp)
          · obtain hfs2 : _ = fs2 := Option.some.inj hstep
            subst hfs2
            simp
            exact Or.inl ha

/-- Claim C2: in CI mode, when `git describe --tags --exact-match`
succeeds, the resolved version is the returned tag with surrounding
whitespace trimmed. -/
theorem ci_version_is_trimmed_tag (e : Env) (raw : String)
    (hci : is_ci e.ci = true) (hg : e.gitDescribe = GitResult.success raw) :
    (resolveVersion e).1 = Except.ok (strTrim raw) := by
  rw [resolveVersion_ci_success e raw hci hg]

/-- Witness for C2: with `CI=true` and `git describe` printing
`" v1.2.3\n"`, the resolved version is `v1.2.3`. -/
theorem ci_version_is_trimmed_tag_witness :
    is_ci envC2.ci = true ∧ envC2.gitDescribe = GitResult.success (" v1.2.3\n") ∧
    (resolveVersion envC2).1 = Except.ok ("v1.2.3") := by
  refine ⟨by decide, rfl, ?_⟩
  have h := ci_version_is_trimmed_tag envC2 (" v1.2.3\n") (by decide) rfl
  have htrim : strTrim (" v1.2.3\n") = "v1.2.3" := by decide
  rw [htrim] at h
  exact h

/-- Claim C3: in CI mode the script aborts the build (non-zero status,
with an error diagnostic among the printed messages) exactly when the
describe query fails on an untagged revision or the `git` executable is
missing; a normally completed run exits with status 0. -/
theorem ci_abort_iff (e : Env) (fs : FS) (hci : is_ci e.ci = true) :
    (((∃ c, c ≠ 0 ∧ (runScript e fs).1 = RunResult.buildAbort c fs) ∧
        ∃ m ∈ (runScript e fs).2, m.isError = true) ↔
      ((∃ r, e.gitDescribe = GitResult.notTagged r) ∨
        e.gitDescribe = GitResult.gitNotFound)) ∧
    (∀ v fs3, (runScript e fs).1 = RunResult.ok v fs3 →
      (runScript e fs).1.exitCode = 0) := by
  constructor
  · constructor
    · rintro ⟨⟨c, _, habort⟩, -⟩
      cases hg : e.gitDescribe with
      | success raw =>
        exact absurd habort
          (runScript_no_abort e fs (strTrim raw)
            (by rw [resolveVersion_ci_success e raw hci hg]) c fs)
      | notTagged r => exact Or.inl ⟨r, rfl⟩
      | gitNotFound => exact Or.inr rfl
    · intro hfail
      have herr : resolveVersion e = (Except.error 1, (resolveVersion e).2) := by
        rcases hfail with ⟨r, hg⟩ | hg <;> simp [resolveVersion, hci, hg]
      have hrun := runScript_of_error e fs 1 (by rw [herr])
      refine ⟨⟨1, one_ne_zero, by rw [hrun]⟩, ?_⟩
      rw [hrun]
      rcases hfail with ⟨r, hg⟩ | hg
      · exact ⟨Msg.errNotTagged r, by simp [resolveVersion, hci, hg, Msg.isError]⟩
      · exact ⟨Msg.errGitMissing, by simp [resolveVersion, hci, hg, Msg.isError]⟩
  · intro v fs3 hok
    rw [hok]
    rfl

/-- Witness for C3: with `CI=TRUE` on an untagged commit the run is a
build abort with the diagnostic, matching the right-hand side. -/
theorem ci_abort_iff_witness :
    is_ci envC3.ci = true ∧
    ((((∃ c, c ≠ 0 ∧ (runScript envC3 fsPrev).1 = RunResult.buildAbort c fsPrev) ∧
        ∃ m ∈ (runScript envC3 fsPrev).2, m.isError = true) ↔
      ((∃ r, envC3.gitDescribe = GitResult.notTagged r) ∨
        envC3.gitDescribe = GitResult.gitNotFound)) ∧
    (∀ v fs3, (runScript envC3 fsPrev).1 = RunResult.ok v fs3 →
      (runScript envC3 fsPrev).1.exitCode = 0)) :=
  ⟨by decide, ci_abort_iff envC3 fsPrev (by decide)⟩

/-- Claim C7: when a CI-mode run aborts (untagged revision or missing
`git`), the file system is left exactly as it was; in particular any
previously existing `version.h` is unchanged. -/
theorem ci_abort_preserves_fs (e : Env) (fs : FS)
    (hci : is_ci e.ci = true)
    (hfail : (∃ r, e.gitDescribe = GitResult.notTagged r) ∨
      e.gitDescribe = GitResult.gitNotFound) :
    (runScript e fs).1 = RunResult.buildAbort 1 fs ∧
    (runScript e fs).1.finalFS.file (version_file_path e) =
      fs.file (version_file_path e) := by
  have herr : (resolveVersion e).1 = Except.error 1 := by
    rcases hfail with ⟨r, hg⟩ | hg <;> simp [resolveVersion, hci, hg]
  have hrun := runScript_of_error e fs 1 herr
  rw [hrun]
  exact ⟨rfl, rfl⟩

/-- Witness for C7: with `git` missing, the previously generated header
at `include/version.h` still has its old content after the aborted run. -/
theorem ci_abort_preserves_fs_witness :
    is_ci envC7.ci = true ∧
    (runScript envC7 fsPrev).1 = RunResult.buildAbort 1 fsPrev ∧
    (runScript envC7 fsPrev).1.finalFS.file (version_file_path envC7) =
      some ("old header") := by
  have h := ci_abort_preserves_fs envC7 fsPrev (by decide) (Or.inr rfl)
  exact ⟨by decide, h.1, by rw [h.2]; decide⟩

/-- Claim C5: for every version string, the rendered header is exactly the
`#pragma once` line, one blank line, the `#define FIRMWARE_VERSION`
line with the version in double quotes, and a single final newline. -/
theorem header_content_is_spec (v : String) : header_content v = specHeader v := by
  apply String.ext
  simp [header_content, specHeader, String.data_append]

/-- Claim C6: a successful run writes exactly the rendered header to
`<include_dir>/version.h` (replacing any prior content), where the
include directory defaults to `include` when the setting is absent, and
a missing include directory is created along with its parents. -/
theorem run_writes_header (e : Env) (fs : FS) (v : String) (fs3 : FS)
    (h : (runScript e fs).1 = RunResult.ok v fs3) :
    fs3.file (version_file_path e) = some (header_content v) ∧
    version_file_path e = include_dir e ++ "/version.h" ∧
    (e.includeDirSetting = none → include_dir e = "include") ∧
    (fs.isDir (include_dir e) = false →
      ∀ a ∈ ancestors (include_dir e), fs3.isDir a = true) := by
  obtain ⟨-, h2, h3⟩ := runScript_ok_inv e fs v fs3 h
  exact ⟨h2, rfl, fun hn => by simp [include_dir, hn], h3⟩

/-- Witness for C6: starting from an empty file system with the setting
`src/gen`, the run succeeds, materialises `src` and `src/gen` as
directories and puts the rendered header at `src/gen/version.h`. -/
theorem run_writes_header_witness :
    (runScript envC6 fsEmpty).1 =
      RunResult.ok ("v1.0") ((runScript envC6 fsEmpty).1.finalFS) ∧
    ((runScript envC6 fsEmpty).1.finalFS).file ("src/gen/version.h") =
      some (header_content ("v1.0")) ∧
    ((runScript envC6 fsEmpty).1.finalFS).isDir ("src") = true ∧
    ((runScript envC6 fsEmpty).1.finalFS).isDir ("src/gen") = true := by
  have h0 : (runScript envC6 fsEmpty).1 =
      RunResult.ok ("v1.0") ((runScript envC6 fsEmpty).1.finalFS) := rfl
  have h := run_writes_header envC6 fsEmpty ("v1.0")
    ((runScript envC6 fsEmpty).1.finalFS) h0
  refine ⟨h0, ?_, ?_, ?_⟩
  · have hf := h.1
    rwa [show version_file_path envC6 = "src/gen/version.h" from rfl] at hf
  · exact h.2.2.2 (by decide) ("src") (by decide)
  · exact h.2.2.2 (by decide) ("src/gen") (by decide)

/-- Claim C9: the script is deterministic in its inputs — two runs over
the same environment (CI value, include setting, clock, describe
outcome) resolve the same version and leave byte-identical header
content at the identical output path. -/
theorem runs_deterministic (e : Env) (fsA fsB : FS)
    (v1 v2 : String) (fs1 fs2 : FS)
    (h1 : (runScript e fsA).1 = RunResult.ok v1 fs1)
    (h2 : (runScript e fsB).1 = RunResult.ok v2 fs2) :
    v1 = v2 ∧
    fs1.file (version_file_path e) = fs2.file (version_file_path e) ∧
    fs1.file (version_file_path e) = some (header_content v1) := by
  obtain ⟨r1, f1, -⟩ := runScript_ok_inv e fsA v1 fs1 h1
  obtain ⟨r2, f2, -⟩ := runScript_ok_inv e fsB v2 fs2 h2
  rw [r1] at r2
  have hv : v1 = v2 := Except.ok.inj r2
  subst hv
  exact ⟨rfl, by rw [f1, f2], f1⟩

/-- Witness for C9: the same local-mode environment run over two
different prior file systems yields the same header bytes at the same
path. -/
theorem runs_deterministic_witness :
    ((runScript envC9 fsEmpty).1.finalFS).file (version_file_path envC9) =
      ((runScript envC9 fsPrev).1.finalFS).file (version_file_path envC9) ∧
    ((runScript envC9 fsEmpty).1.finalFS).file (version_file_path envC9) =
      some (header_content ("dev-20251017-023223")) := by
  have h := runs_deterministic envC9 fsEmpty fsPrev
    ("dev-20251017-023223") ("dev-20251017-023223")
    ((runScript envC9 fsEmpty).1.finalFS) ((runScript envC9 fsPrev).1.finalFS)
    rfl rfl
  exact ⟨h.2.1, h.2.2⟩

/-- Claim C10: when the configured include path exists as a regular file
(so it is not a directory), `os.makedirs` raises before any write is
attempted: the run fails with a propagated error and the file system,
in particular the `version.h` path, is untouched. -/
theorem blocked_include_dir_fails (e : Env) (fs : FS) (c : String)
    (hok : ∃ v, (resolveVersion e).1 = Except.ok v)
    (hdir : fs.isDir (include_dir e) = false)
    (hfile : fs.file (include_dir e) = some c) :
    (runScript e fs).1 = RunResult.ioError fs ∧
    (runScript e fs).1.finalFS.file (version_file_path e) =
      fs.file (version_file_path e) := by
  obtain ⟨v, hres⟩ := hok
  have hp : include_dir e ∈ ancestors (include_dir e) := by
    simp [ancestors]
  have hany : (ancestors (include_dir e)).any
      (fun a => (fs.file a).isSome) = true := by
    rw [List.any_eq_true]
    exact ⟨include_dir e, hp, by rw [hfile]; rfl⟩
  have hmk : fs.mkdirs (include_dir e) = none := by
    simp [FS.mkdirs, hany]
  simp only [runScript, hres, hdir, hmk]
  simp [RunResult.finalFS]

/-- Witness for C10: with the path `include` occupied by a regular file,
the local-mode run fails and produces no `include/version.h`. -/
theorem blocked_include_dir_fails_witness :
    fsBlock.file ("include") = some ("not a directory") ∧
    (runScript envC10 fsBlock).1 = RunResult.ioError fsBlock ∧
    (runScript envC10 fsBlock).1.finalFS.file (version_file_path envC10) = none := by
  have h := blocked_include_dir_fails envC10 fsBlock ("not a directory")
    ⟨strftimeDev dtA, rfl⟩ rfl rfl
  exact ⟨rfl, h.1, by rw [h.2]; rfl⟩

/-- A decimal digit character is a digit. -/
theorem digitChar_isDigit {n : Nat} (h : n < 10) :
    (Nat.digitChar n).isDigit = true := by
  interval_cases n <;> decide

/-- The last decimal digit of any number renders as a digit character. -/
theorem digitChar_mod_isDigit (n : Nat) :
    (Nat.digitChar (n % 10)).isDigit = true :=
  digitChar_isDigit (Nat.mod_lt _ (by norm_num))

/-- The character list of a timestamp version, spelt out. -/
theorem strftimeDev_data (d : DateTime) :
    (strftimeDev d).data =
    ['d', 'e', 'v', '-',
     Nat.digitChar (d.year / 1000 % 10), Nat.digitChar (d.year / 100 % 10),
     Nat.digitChar (d.year / 10 % 10), Nat.digitChar (d.year % 10),
     Nat.digitChar (d.month / 10 % 10), Nat.digitChar (d.month % 10),
     Nat.digitChar (d.day / 10 % 10), Nat.digitChar (d.day % 10), '-',
     Nat.digitChar (d.hour / 10 % 10), Nat.digitChar (d.hour % 10),
     Nat.digitChar (d.minute / 10 % 10), Nat.digitChar (d.minute % 10),
     Nat.digitChar (d.second / 10 % 10), Nat.digitChar (d.second % 10)] := rfl

/-- Claim C4: in local mode the resolved version is the current clock
reading rendered as `dev-YYYYMMDD-HHMMSS`, and that string matches the
pattern `dev-\d{8}-\d{6}`. -/
theorem local_version_is_timestamp (e : Env)
    (hci : is_ci e.ci = false) (hv : e.now.Valid) :
    (resolveVersion e).1 = Except.ok (strftimeDev e.now) ∧
    matchesDevPattern (strftimeDev e.now) = true := by
  refine ⟨by rw [resolveVersion_local e hci], ?_⟩
  unfold matchesDevPattern devPattern
  rw [strftimeDev_data]
  simp [digitChar_mod_isDigit]

/-- Witness for C4: with `CI` absent and the clock at
2025-10-17 02:32:23, the version is `dev-20251017-023223`. -/
theorem local_version_is_timestamp_witness :
    is_ci envC4.ci = false ∧ envC4.now.Valid ∧
    (resolveVersion envC4).1 = Except.ok ("dev-20251017-023223") ∧
    matchesDevPattern ("dev-20251017-023223") = true := by
  have h := local_version_is_timestamp envC4 (by decide) (by decide)
  have hs : strftimeDev envC4.now = "dev-20251017-023223" := by decide
  refine ⟨by decide, by decide, ?_, ?_⟩
  · rw [← hs]; exact h.1
  · rw [← hs]; exact h.2

/-- Digit characters order like the digits they render. -/
theorem digitChar_lt {i j : Nat} (hi : i < 10) (hj : j < 10) (h : i < j) :
    Nat.digitChar i < Nat.digitChar j := by
  interval_cases i <;> interval_cases j <;>
    first
    | exact absurd h (by decide)
    | decide

/-- Two-digit zero-padded renderings of numbers up to 99 compare
lexicographically like the numbers, whatever follows them. -/
theorem lex_pad2 {a b : Nat} (h : a < b) (hb : b ≤ 99) (r s : List Char) :
    List.Lex (fun x y : Char => x < y) (pad2 a ++ r) (pad2 b ++ s) := by
  have hd : a / 10 % 10 < b / 10 % 10 ∨
      (a / 10 % 10 = b / 10 % 10 ∧ a % 10 < b % 10) := by omega
  simp only [pad2, List.cons_append, List.nil_append]
  rcases hd with h1 | ⟨h1, h2⟩
  · exact List.Lex.rel (digitChar_lt (by omega) (by omega) h1)
  · rw [h1]
    exact List.Lex.cons (List.Lex.rel (digitChar_lt (by omega) (by omega) h2))

/-- A four-digit rendering is the two-digit rendering of the upper pair
of digits followed by the two-digit rendering of the lower pair. -/
theorem pad4_eq (n : Nat) : pad4 n = pad2 (n / 100) ++ pad2 (n % 100) := by
  have e1 : n / 100 / 10 % 10 = n / 1000 % 10 := by omega
  have e3 : n % 100 / 10 % 10 = n / 10 % 10 := by omega
  have e4 : n % 100 % 10 = n % 10 := by omega
  simp only [pad4, pad2, List.cons_append, List.nil_append, e1, e3, e4]

/-- Four-digit zero-padded renderings of numbers up to 9999 compare
lexicographically like the numbers, whatever follows them. -/
theorem lex_pad4 {a b : Nat} (h : a < b) (hb : b ≤ 9999) (r s : List Char) :
    List.Lex (fun x y : Char => x < y) (pad4 a ++ r) (pad4 b ++ s) := by
  rw [pad4_eq, pad4_eq, List.append_assoc, List.append_assoc]
  have hd : a / 100 < b / 100 ∨ (a / 100 = b / 100 ∧ a % 100 < b % 100) := by
    omega
  rcases hd with h1 | ⟨h1, h2⟩
  · exact lex_pad2 h1 (by omega) _ _
  · rw [h1]
    simp only [pad2, List.cons_append, List.nil_append]
    exact List.Lex.cons (List.Lex.cons (lex_pad2 h2 (by omega) _ _))

/-- A strictly later valid clock reading renders to a strictly greater
timestamp version in the lexicographic string order. -/
theorem strftimeDev_lt (d1 d2 : DateTime) (h1 : d1.Valid) (h2 : d2.Valid)
    (h : dtKey d1 < dtKey d2) : strftimeDev d1 < strftimeDev d2 := by
  obtain ⟨y1a, y1b, mo1a, mo1b, dd1a, dd1b, hh1, mi1, ss1⟩ := h1
  obtain ⟨y2a, y2b, mo2a, mo2b, dd2a, dd2b, hh2, mi2, ss2⟩ := h2
  have hf : d1.year < d2.year ∨ (d1.year = d2.year ∧ (d1.month < d2.month ∨
      (d1.month = d2.month ∧ (d1.day < d2.day ∨ (d1.day = d2.day ∧
      (d1.hour < d2.hour ∨ (d1.hour = d2.hour ∧ (d1.minute < d2.minute ∨
      (d1.minute = d2.minute ∧ d1.second < d2.second))))))))) := by
    unfold dtKey at h
    omega
  have key : List.Lex (fun x y : Char => x < y)
      (strftimeDev d1).data (strftimeDev d2).data := by
    show List.Lex (fun x y : Char => x < y)
      ('d' :: 'e' :: 'v' :: '-' :: (pad4 d1.year ++ (pad2 d1.month ++ (pad2 d1.day ++
        ('-' :: (pad2 d1.hour ++ (pad2 d1.minute ++ pad2 d1.second)))))))
      ('d' :: 'e' :: 'v' :: '-' :: (pad4 d2.year ++ (pad2 d2.month ++ (pad2 d2.day ++
        ('-' :: (pad2 d2.hour ++ (pad2 d2.minute ++ pad2 d2.second)))))))
    rcases hf with hy | ⟨hy, hmo | ⟨hmo, hdd | ⟨hdd, hhh | ⟨hhh, hmi | ⟨hmi, hss⟩⟩⟩⟩⟩
    · iterate 4 refine List.Lex.cons ?_
      exact lex_pad4 hy y2b _ _
    · rw [hy]
      iterate 8 refine List.Lex.cons ?_
      exact lex_pad2 hmo (by omega) _ _
    · rw [hy, hmo]
      iterate 10 refine List.Lex.cons ?_
      exact lex_pad2 hdd (by omega) _ _
    · rw [hy, hmo, hdd]
      iterate 13 refine List.Lex.cons ?_
      exact lex_pad2 hhh (by omega) _ _
    · rw [hy, hmo, hdd, hhh]
      iterate 15 refine List.Lex.cons ?_
      exact lex_pad2 hmi (by omega) _ _
    · rw [hy, hmo, hdd, hhh, hmi]
      iterate 17 refine List.Lex.cons ?_
      exact lex_pad2 hss (by omega) _ _
  rw [String.lt_iff_toList_lt]
  exact key

/-- Valid clock readings with the same chronological key render to the
same timestamp version. -/
theorem strftimeDev_eq_of_dtKey_eq (d1 d2 : DateTime)
    (h1 : d1.Valid) (h2 : d2.Valid) (h : dtKey d1 = dtKey d2) :
    strftimeDev d1 = strftimeDev d2 := by
  obtain ⟨y1a, y1b, mo1a, mo1b, dd1a, dd1b, hh1, mi1, ss1⟩ := h1
  obtain ⟨y2a, y2b, mo2a, mo2b, dd2a, dd2b, hh2, mi2, ss2⟩ := h2
  have hf : d1.year = d2.year ∧ d1.month = d2.month ∧ d1.day = d2.day ∧
      d1.hour = d2.hour ∧ d1.minute = d2.minute ∧ d1.second = d2.second := by
    unfold dtKey at h
    omega
  obtain ⟨ha, hb, hc, hd, he, hg⟩ := hf
  unfold strftimeDev
  rw [ha, hb, hc, hd, he, hg]

/-- Counterexample for C8 as stated: "not earlier" includes an equal
clock reading, and two local runs at the same clock reading produce the
same version, not two different ones. -/
theorem local_versions_claim_false :
    ¬ (∀ e1 e2 : Env, is_ci e1.ci = false → is_ci e2.ci = false →
      dtKey e1.now ≤ dtKey e2.now →
      ∀ v1 v2, (resolveVersion e1).1 = Except.ok v1 →
        (resolveVersion e2).1 = Except.ok v2 → v1 ≠ v2) := by
  intro hclaim
  exact hclaim envL1 envL1 (by decide) (by decide) le_rfl
    (strftimeDev dtA) (strftimeDev dtA) rfl rfl rfl

/-- Claim C8 (amended): for two local-mode runs over valid clock readings
where the second reading is not earlier than the first, the generated
versions are lexicographically non-decreasing, and they differ whenever
the second reading is strictly later. -/
theorem local_versions_monotone (e1 e2 : Env)
    (h1 : is_ci e1.ci = false) (h2 : is_ci e2.ci = false)
    (hv1 : e1.now.Valid) (hv2 : e2.now.Valid)
    (hle : dtKey e1.now ≤ dtKey e2.now)
    (v1 v2 : String)
    (r1 : (resolveVersion e1).1 = Except.ok v1)
    (r2 : (resolveVersion e2).1 = Except.ok v2) :
    v1 ≤ v2 ∧ (dtKey e1.now < dtKey e2.now → v1 ≠ v2) := by
  rw [resolveVersion_local e1 h1] at r1
  rw [resolveVersion_local e2 h2] at r2
  have hv1' : v1 = strftimeDev e1.now := (Except.ok.inj r1).symm
  have hv2' : v2 = strftimeDev e2.now := (Except.ok.inj r2).symm
  subst hv1' hv2'
  rcases eq_or_lt_of_le hle with heq | hlt
  · have hsame := strftimeDev_eq_of_dtKey_eq e1.now e2.now hv1 hv2 heq
    exact ⟨le_of_eq hsame, fun hlt' => absurd heq (ne_of_lt hlt')⟩
  · have hstr := strftimeDev_lt e1.now e2.now hv1 hv2 hlt
    exact ⟨le_of_lt hstr, fun _ => ne_of_lt hstr⟩

/-- Witness for C8 (amended): one second apart, the two local versions
are ordered and distinct. -/
theorem local_versions_monotone_witness :
    dtKey envL1.now ≤ dtKey envL2.now ∧
    ("dev-20251017-023223" : String) ≤ "dev-20251017-023224" ∧
    ("dev-20251017-023223" : String) ≠ "dev-20251017-023224" := by
  have h := local_versions_monotone envL1 envL2 (by decide) (by decide)
    (by decide) (by decide) (by decide)
    ("dev-20251017-023223") ("dev-20251017-023224") rfl rfl
  exact ⟨by decide, h.1, h.2 (by decide)⟩
